import Mathlib

/-!
Shallow embedding of `src/main/antlr4/imports/make_ci.py`, a one-shot text
transform that rewrites quoted literal keywords in ANTLRv4 keyword files
into case-insensitive bracket expressions.

A line is modelled as a `List Char` (including its terminator, as Python
`readline` keeps it).  Python `str.find` is modelled by `findSub`, which
returns `none` where Python returns `-1` and `some i` for the first index
at which the needle occurs.
-/

namespace MakeCI

/-- Python string-slice helper: does `needle` occur at the very start of
`hay`?  (Corresponds to `hay.startswith(needle)`.) -/
def matchesAt : List Char → List Char → Bool
  | [], _ => true
  | _ :: _, [] => false
  | p :: ps, c :: cs => p == c && matchesAt ps cs

/-- Python `hay.find(needle)`: index of the first occurrence of `needle`
in `hay`, `none` when absent (Python returns `-1`). -/
def findSub (needle : List Char) : List Char → Option Nat
  | [] => if matchesAt needle [] then some 0 else none
  | c :: cs =>
      if matchesAt needle (c :: cs) then some 0
      else (findSub needle cs).map (fun n => n + 1)

/-- Python `hay.find(needle, start)`: first occurrence at index ≥ `start`. -/
def findSubFrom (needle hay : List Char) (start : Nat) : Option Nat :=
  (findSub needle (hay.drop start)).map (fun n => n + start)

/-- The single-quote character, source line 18: `line.find("'")`. -/
def quoteChar : Char := Char.ofNat 39

/-- The comment marker, source line 17: `line.find("//")`. -/
def commentMarker : List Char := String.toList "//"

/-- Source line 25: the per-character bracket expression
`'[%c%c]' % (ch, ch.lower())` where `ch` is an (already upper-cased)
character of the literal text. -/
def bracketExpr (ch : Char) : List Char := ['[', ch, ch.toLower, ']']

/-- Source lines 23-26: upper-case the extracted text and join the
per-character bracket expressions with no separator. -/
def expand (text : List Char) : List Char :=
  ((text.map Char.toUpper).map bracketExpr).flatten

/-- Source lines 21-28: given a recognized opening quote at index `iq`,
look for the closing quote after it; if found, reassemble the line as
prefix + expansion + suffix, otherwise leave the line unchanged. -/
def expandAt (line : List Char) (iq : Nat) : List Char :=
  match findSubFrom [quoteChar] line (iq + 1) with
  | none => line
  | some ie =>
      line.take iq
        ++ expand ((line.drop (iq + 1)).take (ie - (iq + 1)))
        ++ line.drop (ie + 1)

/-- Source lines 17-28: the per-line transform of `make_insensitive`.
A literal is recognized only when a quote exists and either no comment
marker exists or the quote index is strictly smaller. -/
def make_insensitive_line (line : List Char) : List Char :=
  match findSub [quoteChar] line, findSub commentMarker line with
  | none, _ => line
  | some iq, none => expandAt line iq
  | some iq, some ic => if iq < ic then expandAt line iq else line

/-- Source lines 5-6 and 9: the required suffix check (`endswith`) and
output-name computation (`filename[:-3]`); `none` models the
`ValueError` raised on a bad suffix. -/
def requiredSuffix : List Char := String.toList ".g4.in"

/-- Python `s.endswith(t)`. -/
def endsWithList (s t : List Char) : Bool :=
  matchesAt t (s.drop (s.length - t.length))

/-- Source line 9: `out_filename = filename[:-3]`. -/
def out_filename (filename : List Char) : List Char :=
  filename.take (filename.length - 3)

/-- Source lines 4-9: name handling of `make_insensitive`; `none` models
the raised `ValueError`. -/
def make_insensitive_name (filename : List Char) : Option (List Char) :=
  if endsWithList filename requiredSuffix then some (out_filename filename)
  else none

/-- Observable outcome of one driver run: the lines printed to stdout,
the process exit code, and the filenames handed to `make_insensitive`. -/
structure DriverResult where
  stdoutLines : List (List Char)
  exitCode : Nat
  processed : List (List Char)
deriving DecidableEq

/-- Source lines 34-36: the three `print` calls of the usage message. -/
def usageLines (prog : List Char) : List (List Char) :=
  [String.toList "usage: " ++ prog ++ String.toList " file1.g4.in [file2.g4.in ...]",
   String.toList "\tConverts the ANTLRv4 keyword file(s) to be case-insensitive.",
   String.toList "\tRequires at least one file to be specified on the command-line."]

/-- Source line 41: the warning printed for an argument lacking the suffix. -/
def warningLine (name : List Char) : List Char :=
  String.toList "WARNING:  Unrecognized file-type for " ++ name
    ++ String.toList ", skipping."

/-- One iteration of the loop at source lines 39-44: accumulate either a
warning (bad suffix, skipped) or the filename passed to the rewriter. -/
def driverStep (acc : List (List Char) × List (List Char)) (filename : List Char) :
    List (List Char) × List (List Char) :=
  if endsWithList filename requiredSuffix then (acc.1, acc.2 ++ [filename])
  else (acc.1 ++ [warningLine filename], acc.2)

/-- Source lines 33-44: the command driver.  With no file arguments it
prints the usage text and exits with status 1; otherwise it walks the
arguments, warning about and skipping bad suffixes, and exits 0. -/
def runDriver (prog : List Char) (args : List (List Char)) : DriverResult :=
  if args.isEmpty then
    { stdoutLines := usageLines prog, exitCode := 1, processed := [] }
  else
    let acc := args.foldl driverStep ([], [])
    { stdoutLines := acc.1, exitCode := 0, processed := acc.2 }

/-- Helper: when the quote is recognized (first quote exists and precedes
any comment marker), the rewriter takes the expansion branch. -/
theorem recognized_branch (line : List Char) (iq : Nat)
    (hq : findSub [quoteChar] line = some iq)
    (hc : ∀ ic, findSub commentMarker line = some ic → iq < ic) :
    make_insensitive_line line = expandAt line iq := by
  unfold make_insensitive_line
  cases hcm : findSub commentMarker line with
  | none => rw [hq]
  | some ic => rw [hq]; exact if_pos (hc ic hcm)

/-- C1: for a line whose first quote precedes any comment marker (or no
marker exists) and which has a closing quote, the output equals the text
before the opening quote, then the per-character bracket expansion of
the upper-cased text strictly between the quotes, then everything after
the closing quote to end of line (terminator included, since the line
value carries its terminator). -/
theorem C1_literal_expansion (line : List Char) (iq ie : Nat)
    (hq : findSub [quoteChar] line = some iq)
    (hc : ∀ ic, findSub commentMarker line = some ic → iq < ic)
    (he : findSubFrom [quoteChar] line (iq + 1) = some ie) :
    make_insensitive_line line
      = line.take iq
          ++ expand ((line.drop (iq + 1)).take (ie - (iq + 1)))
          ++ line.drop (ie + 1) := by
  rw [recognized_branch line iq hq hc]
  unfold expandAt
  rw [he]

/-- Witness for C1 on the end-to-end scenario line. -/
theorem C1_literal_expansion_witness :
    make_insensitive_line (String.toList "SELECT: \x27select\x27;\n")
      = String.toList "SELECT: [Ss][Ee][Ll][Ee][Cc][Tt];\n" := by
  have h := C1_literal_expansion (String.toList "SELECT: \x27select\x27;\n") 8 15
    (by decide)
    (fun ic hic => by
      rw [show findSub commentMarker (String.toList "SELECT: \x27select\x27;\n") = none
            from by decide] at hic
      exact Option.noConfusion hic)
    (by decide)
  rw [h]
  decide

/-- C2 counterexample: on the line `A [q]b // c[q] d` (with `[q]` the
quote character) the comment marker sits at index 5, yet the rewriter
output does not even keep the text from index 5 onward as a suffix: the
comment text was modified, refuting the claim as stated. -/
theorem C2_comment_text_modified_counterexample :
    findSub commentMarker (String.toList "A \x27b // c\x27 d") = some 5 ∧
    make_insensitive_line (String.toList "A \x27b // c\x27 d")
      = String.toList "A [Bb][  ][//][//][  ][Cc] d" ∧
    ¬ List.IsSuffix ((String.toList "A \x27b // c\x27 d").drop 5)
        (make_insensitive_line (String.toList "A \x27b // c\x27 d")) := by
  refine ⟨by decide, by decide, ?_⟩
  decide

/-- C2 amended: text at or after the first comment marker never opens a
literal: whenever a line with a comment marker at index `ic` is modified
at all, the opening quote of the expanded literal is strictly before
`ic` (the closing quote, and hence modified text, may lie after it). -/
theorem C2_open_quote_before_marker (line : List Char) (ic : Nat)
    (hc : findSub commentMarker line = some ic)
    (hmod : make_insensitive_line line ≠ line) :
    ∃ iq, findSub [quoteChar] line = some iq ∧ iq < ic := by
  by_cases hex : ∃ iq, findSub [quoteChar] line = some iq ∧ iq < ic
  · exact hex
  · exfalso
    apply hmod
    unfold make_insensitive_line
    cases hq : findSub [quoteChar] line with
    | none => rw [hc]
    | some iq =>
        rw [hc]
        exact if_neg (fun hlt => hex ⟨iq, hq, hlt⟩)

/-- Witness for the amended C2. -/
theorem C2_open_quote_before_marker_witness :
    ∃ iq, findSub [quoteChar] (String.toList "K \x27a\x27 x // c") = some iq ∧ iq < 8 :=
  C2_open_quote_before_marker (String.toList "K \x27a\x27 x // c") 8
    (by decide) (by decide)

/-- C3 counterexample: with zero file arguments the driver prints three
lines, not two. -/
theorem C3_two_line_usage_counterexample :
    (runDriver (String.toList "make_ci.py") []).stdoutLines.length ≠ 2 := by
  decide

/-- C3 amended: with zero file arguments the driver prints the usage
text, which is three lines, and exits with status 1. -/
theorem C3_usage_and_exit (prog : List Char) :
    (runDriver prog []).stdoutLines = usageLines prog ∧
    (runDriver prog []).stdoutLines.length = 3 ∧
    (runDriver prog []).exitCode = 1 :=
  ⟨rfl, rfl, rfl⟩

/-- C4: a line containing no quote character passes through unchanged. -/
theorem C4_no_quote_identity (line : List Char)
    (h : findSub [quoteChar] line = none) :
    make_insensitive_line line = line := by
  unfold make_insensitive_line
  rw [h]

/-- Witness for C4. -/
theorem C4_no_quote_identity_witness :
    findSub [quoteChar] (String.toList "KEY: value;\n") = none ∧
    make_insensitive_line (String.toList "KEY: value;\n")
      = String.toList "KEY: value;\n" :=
  ⟨by decide, C4_no_quote_identity _ (by decide)⟩

/-- C5: when a comment marker exists and the first quote does not occur
strictly before it, the line passes through unchanged. -/
theorem C5_quote_after_marker_identity (line : List Char) (iq ic : Nat)
    (hq : findSub [quoteChar] line = some iq)
    (hc : findSub commentMarker line = some ic)
    (hle : ic ≤ iq) :
    make_insensitive_line line = line := by
  unfold make_insensitive_line
  rw [hq, hc]
  exact if_neg (Nat.not_lt.mpr hle)

/-- Witness for C5. -/
theorem C5_quote_after_marker_identity_witness :
    make_insensitive_line (String.toList "x // \x27a\x27")
      = String.toList "x // \x27a\x27" :=
  C5_quote_after_marker_identity _ 5 2 (by decide) (by decide) (by decide)

/-- C6: a recognized opening quote with no closing quote on the line
leaves the line unchanged; the embedding is a total function, matching
the source code, which has no raising path in this case. -/
theorem C6_unterminated_identity (line : List Char) (iq : Nat)
    (hq : findSub [quoteChar] line = some iq)
    (hc : ∀ ic, findSub commentMarker line = some ic → iq < ic)
    (he : findSubFrom [quoteChar] line (iq + 1) = none) :
    make_insensitive_line line = line := by
  rw [recognized_branch line iq hq hc]
  unfold expandAt
  rw [he]

/-- Witness for C6. -/
theorem C6_unterminated_identity_witness :
    make_insensitive_line (String.toList "KEY \x27abc\n")
      = String.toList "KEY \x27abc\n" := by
  have h := C6_unterminated_identity (String.toList "KEY \x27abc\n") 4
    (by decide)
    (fun ic hic => by
      rw [show findSub commentMarker (String.toList "KEY \x27abc\n") = none
            from by decide] at hic
      exact Option.noConfusion hic)
    (by decide)
  exact h

/-- Helper: `matchesAt` is reflexive. -/
theorem matchesAt_refl (l : List Char) : matchesAt l l = true := by
  induction l with
  | nil => rfl
  | cons c cs ih => simp [matchesAt, ih]

/-- Helper: a list always ends with any trailing segment of itself. -/
theorem endsWithList_append (base t : List Char) :
    endsWithList (base ++ t) t = true := by
  unfold endsWithList
  have h1 : (base ++ t).length - t.length = base.length := by
    simp [List.length_append]
  rw [h1, List.drop_left, matchesAt_refl]

/-- C7: a filename of the form `base ++ ".g4.in"` is accepted and its
output name is `base ++ ".g4"`: the trailing `.in` is removed and
nothing else about the name changes. -/
theorem C7_output_name (base : List Char) :
    make_insensitive_name (base ++ String.toList ".g4.in")
      = some (base ++ String.toList ".g4") := by
  unfold make_insensitive_name
  rw [show requiredSuffix = String.toList ".g4.in" from rfl,
    endsWithList_append base (String.toList ".g4.in")]
  simp only [if_true]
  unfold out_filename
  have h2 : (base ++ String.toList ".g4.in").length - 3 = base.length + 3 := by
    simp [List.length_append]
  rw [h2, List.take_append_eq_append_take,
    List.take_of_length_le (Nat.le_add_right _ _)]
  simp

/-- Helper: the driver loop accumulates exactly one warning per argument
lacking the required suffix and hands exactly the suffixed arguments to
the rewriter, in order. -/
theorem driver_fold_spec (args : List (List Char)) (w p : List (List Char)) :
    args.foldl driverStep (w, p)
      = (w ++ (args.filter (fun a => !endsWithList a requiredSuffix)).map warningLine,
         p ++ args.filter (fun a => endsWithList a requiredSuffix)) := by
  induction args generalizing w p with
  | nil => simp
  | cons a as ih =>
      rw [List.foldl_cons]
      cases h : endsWithList a requiredSuffix with
      | true =>
          have hstep : driverStep (w, p) a = (w, p ++ [a]) := by
            simp [driverStep, h]
          rw [hstep, ih, List.filter_cons, List.filter_cons, h]
          simp
      | false =>
          have hstep : driverStep (w, p) a = (w ++ [warningLine a], p) := by
            simp [driverStep, h]
          rw [hstep, ih, List.filter_cons, List.filter_cons, h]
          simp

/-- C8: an argument lacking the `.g4.in` suffix gets exactly its warning
line on stdout, is never handed to the rewriter (so no output file is
created for it), the remaining arguments are still processed, and the
exit status stays 0. -/
theorem C8_bad_suffix_skipped (prog : List Char) (args : List (List Char))
    (a : List Char) (hmem : a ∈ args)
    (hbad : endsWithList a requiredSuffix = false) :
    (runDriver prog args).stdoutLines
        = (args.filter (fun x => !endsWithList x requiredSuffix)).map warningLine ∧
    warningLine a ∈ (runDriver prog args).stdoutLines ∧
    a ∉ (runDriver prog args).processed ∧
    (runDriver prog args).exitCode = 0 := by
  have hne : args.isEmpty = false := by
    cases args with
    | nil => cases hmem
    | cons _ _ => rfl
  have hrun : runDriver prog args
      = { stdoutLines :=
            (args.filter (fun x => !endsWithList x requiredSuffix)).map warningLine,
          exitCode := 0,
          processed := args.filter (fun x => endsWithList x requiredSuffix) } := by
    unfold runDriver
    rw [hne]
    simp only [Bool.false_eq_true, if_false]
    rw [driver_fold_spec]
    simp
  refine ⟨by rw [hrun], ?_, ?_, by rw [hrun]⟩
  · rw [hrun]
    exact List.mem_map_of_mem _ (List.mem_filter.mpr ⟨hmem, by simp [hbad]⟩)
  · rw [hrun]
    intro hin
    have := (List.mem_filter.mp hin).2
    rw [hbad] at this
    exact Bool.noConfusion this

/-- Witness for C8 on the `notes.txt` scenario. -/
theorem C8_bad_suffix_skipped_witness :
    endsWithList (String.toList "notes.txt") requiredSuffix = false ∧
    ((runDriver (String.toList "make_ci.py") [String.toList "notes.txt"]).stdoutLines
        = ([String.toList "notes.txt"].filter
            (fun x => !endsWithList x requiredSuffix)).map warningLine ∧
     warningLine (String.toList "notes.txt")
        ∈ (runDriver (String.toList "make_ci.py")
            [String.toList "notes.txt"]).stdoutLines ∧
     String.toList "notes.txt"
        ∉ (runDriver (String.toList "make_ci.py")
            [String.toList "notes.txt"]).processed ∧
     (runDriver (String.toList "make_ci.py")
        [String.toList "notes.txt"]).exitCode = 0) :=
  ⟨by decide,
   C8_bad_suffix_skipped (String.toList "make_ci.py") [String.toList "notes.txt"]
     (String.toList "notes.txt") (List.mem_singleton_self _) (by decide)⟩

/-- C9: the expansion upper-cases the extracted text first, so two
quoted texts equal after upper-casing produce identical bracket
expression sequences. -/
theorem C9_case_invariant (t1 t2 : List Char)
    (h : t1.map Char.toUpper = t2.map Char.toUpper) :
    expand t1 = expand t2 := by
  unfold expand
  rw [h]

/-- Witness for C9: `Select` and `SELECT` expand identically. -/
theorem C9_case_invariant_witness :
    (String.toList "Select").map Char.toUpper
        = (String.toList "SELECT").map Char.toUpper ∧
    expand (String.toList "Select") = expand (String.toList "SELECT") :=
  ⟨by decide, C9_case_invariant _ _ (by decide)⟩

/-- C10: a character with no case distinction is doubled inside its
bracket expression, the empty literal expands to the empty string, and
on a whole line an empty literal disappears together with both quotes. -/
theorem C10_caseless_doubled (c : Char) (hu : c.toUpper = c) (hl : c.toLower = c) :
    expand [c] = ['[', c, c, ']'] ∧
    expand ([] : List Char) = [] ∧
    make_insensitive_line (String.toList "K: \x27\x27;\n") = String.toList "K: ;\n" := by
  refine ⟨?_, rfl, by decide⟩
  simp [expand, bracketExpr, hu, hl]

/-- Witness for C10 at the digit character. -/
theorem C10_caseless_doubled_witness :
    Char.toUpper '0' = '0' ∧ Char.toLower '0' = '0' ∧
    (expand ['0'] = ['[', '0', '0', ']'] ∧
     expand ([] : List Char) = [] ∧
     make_insensitive_line (String.toList "K: \x27\x27;\n")
        = String.toList "K: ;\n") :=
  ⟨by decide, by decide, C10_caseless_doubled '0' (by decide) (by decide)⟩

end MakeCI
